import Mathlib

/-!
Verification development for the image splitting / compression pipeline
(`图片拆分_final.py`, `图片压缩工具_final.py`).  The Python functions that the
specification's claims talk about are embedded shallowly below:
pure fragments become Lean functions, the effectful fragments (download,
encode, upload, file system) are threaded explicitly as parameters and
explicit file-name lists, and Python exceptions become `Except String`.
-/

/-- A canonical crop rectangle, the result of `normalize_coordinates`:
`(x1, y1, x2, y2)` as Python integers. -/
structure Rect where
  x1 : Int
  y1 : Int
  x2 : Int
  y2 : Int
deriving DecidableEq, Repr

/-- The dynamic Python values that can reach `normalize_coordinates`:
numbers, booleans, strings, lists, tuples, dicts (the code only ever
consults string keys, so keys are modelled as strings) and `None`.
Python floats are represented exactly as rationals, which covers every
decimal literal the parsers below can produce. -/
inductive PyVal where
  | int (n : Int)
  | float (q : ℚ)
  | bool (b : Bool)
  | str (s : String)
  | list (xs : List PyVal)
  | tuple (xs : List PyVal)
  | dict (kvs : List (String × PyVal))
  | none
deriving Repr

/-- Whitespace as recognised by `str.strip` / the JSON grammar. -/
def isWs (c : Char) : Bool :=
  c = ' ' ∨ c = '\t' ∨ c = '\n' ∨ c = '\r'

/-- Drop leading whitespace. -/
def skipWs : List Char → List Char
  | c :: cs => if isWs c then skipWs cs else c :: cs
  | [] => []

/-- Python `str.strip()`: drop whitespace on both ends. -/
def pyStrip (cs : List Char) : List Char :=
  ((skipWs ((skipWs cs.reverse)).reverse))

/-- Longest digit prefix and the remainder. -/
def takeDigits : List Char → List Char × List Char
  | c :: cs =>
    if c.isDigit then
      let (d, r) := takeDigits cs
      (c :: d, r)
    else ([], c :: cs)
  | [] => ([], [])

/-- Value of a digit string. -/
def digitsToNat (ds : List Char) : Nat :=
  ds.foldl (fun a c => 10 * a + (c.toNat - 48)) 0

/-- `int()` applied to a Python float: truncation toward zero. -/
def ratTrunc (q : ℚ) : Int :=
  q.num.tdiv (q.den : Int)

/-- Assemble a decimal number from sign, integer digits, fractional digits
and exponent, as a rational (`intPart.fracPart * 10 ^ exp`). -/
def mkNumber (neg : Bool) (intDs fracDs : List Char) (exp : Int) : ℚ :=
  let mant : Int := (digitsToNat intDs * 10 ^ fracDs.length + digitsToNat fracDs : Nat)
  let signed : Int := if neg then -mant else mant
  (signed : ℚ) * (10 : ℚ) ^ (exp - (fracDs.length : Int))

/-- Whether the digits/fraction/exponent combination denotes a Python or
JSON `int` (no fractional part, no exponent). -/
def numIsInt (hasFrac hasExp : Bool) : Bool :=
  !hasFrac && !hasExp

/-- Fractional part of a JSON number: `.digits` (digits required), or absent. -/
def parseFracPart (cs : List Char) : Option (List Char × List Char) :=
  match cs with
  | '.' :: r =>
    match takeDigits r with
    | ([], _) => Option.none
    | (fds, rest) => some (fds, rest)
  | _ => some ([], cs)

/-- Exponent part `e|E [+|-] digits`, or absent; returns (present, value, rest). -/
def parseExpPart (cs : List Char) : Option (Bool × Int × List Char) :=
  match cs with
  | c :: r =>
    if c = 'e' ∨ c = 'E' then
      let (eneg, r2) := match r with
        | '+' :: rr => (false, rr)
        | '-' :: rr => (true, rr)
        | _ => (false, r)
      match takeDigits r2 with
      | ([], _) => Option.none
      | (eds, rest) =>
        some (true, if eneg then -(digitsToNat eds : Int) else (digitsToNat eds : Int), rest)
    else some (false, 0, c :: r)
  | [] => some (false, 0, [])

/-- A JSON number (RFC 8259 grammar: optional `-`, no leading zeros,
optional fraction and exponent); `int` when it has neither. -/
def jsonNumber (cs : List Char) : Option (PyVal × List Char) :=
  let (neg, cs1) := match cs with
    | '-' :: r => (true, r)
    | _ => (false, cs)
  match takeDigits cs1 with
  | ([], _) => Option.none
  | (ds, cs2) =>
    if 1 < ds.length ∧ ds.headD 'x' = '0' then Option.none
    else
      match parseFracPart cs2 with
      | Option.none => Option.none
      | some (fds, cs3) =>
        match parseExpPart cs3 with
        | Option.none => Option.none
        | some (hasExp, e, cs4) =>
          if fds.isEmpty ∧ ¬hasExp then
            some (.int (if neg then -(digitsToNat ds : Int) else (digitsToNat ds : Int)), cs4)
          else some (.float (mkNumber neg ds fds e), cs4)

/-- A Python numeric literal with at most one leading sign (as accepted by
`ast.literal_eval`): `digits`, `digits.digits`, `digits.`, `.digits`, each
with an optional exponent; `int` exactly when there is no dot and no
exponent. -/
def pyNumber (cs : List Char) : Option (PyVal × List Char) :=
  let (neg, cs1) := match cs with
    | '-' :: r => (true, r)
    | '+' :: r => (false, r)
    | _ => (false, cs)
  match takeDigits cs1 with
  | (ds, cs2) =>
    let (hasDot, fds, cs3) :=
      match cs2 with
      | '.' :: r =>
        match takeDigits r with
        | (fds, rest) => (true, fds, rest)
      | _ => (false, ([] : List Char), cs2)
    if ds.isEmpty ∧ (¬hasDot ∨ fds.isEmpty) then Option.none
    else
      match parseExpPart cs3 with
      | Option.none => Option.none
      | some (hasExp, e, cs4) =>
        if ¬hasDot ∧ ¬hasExp then
          some (.int (if neg then -(digitsToNat ds : Int) else (digitsToNat ds : Int)), cs4)
        else some (.float (mkNumber neg ds fds e), cs4)

/-- Python `float(s)` on an already-stripped string: the whole string must
be one numeric literal. -/
def pyFloatFull (cs : List Char) : Option ℚ :=
  match pyNumber cs with
  | some (.int n, []) => some (n : ℚ)
  | some (.float q, []) => some q
  | _ => Option.none

/-- Value of a hexadecimal digit. -/
def hexVal (c : Char) : Option Nat :=
  if '0' ≤ c ∧ c ≤ '9' then some (c.toNat - 48)
  else if 'a' ≤ c ∧ c ≤ 'f' then some (c.toNat - 87)
  else if 'A' ≤ c ∧ c ≤ 'F' then some (c.toNat - 55)
  else Option.none

/-- Single-character JSON string escapes. -/
def jsonEscape (c : Char) : Option Char :=
  if c = '"' then some '"'
  else if c = '\\' then some '\\'
  else if c = '/' then some '/'
  else if c = 'b' then some (Char.ofNat 8)
  else if c = 'f' then some (Char.ofNat 12)
  else if c = 'n' then some '\n'
  else if c = 'r' then some '\r'
  else if c = 't' then some '\t'
  else Option.none

/-- Body of a JSON string after the opening quote: contents and remainder. -/
def jsonStringChars : List Char → Option (List Char × List Char)
  | [] => Option.none
  | c :: cs =>
    if c = '"' then some ([], cs)
    else if c = '\\' then
      match cs with
      | [] => Option.none
      | e :: cs2 =>
        if e = 'u' then
          match cs2 with
          | h1 :: h2 :: h3 :: h4 :: cs3 =>
            match hexVal h1, hexVal h2, hexVal h3, hexVal h4 with
            | some a, some b, some c4, some d =>
              match jsonStringChars cs3 with
              | some (l, r) => some (Char.ofNat (((a * 16 + b) * 16 + c4) * 16 + d) :: l, r)
              | Option.none => Option.none
            | _, _, _, _ => Option.none
          | _ => Option.none
        else
          match jsonEscape e with
          | some ec =>
            match jsonStringChars cs2 with
            | some (l, r) => some (ec :: l, r)
            | Option.none => Option.none
          | Option.none => Option.none
    else if c.toNat < 32 then Option.none
    else
      match jsonStringChars cs with
      | some (l, r) => some (c :: l, r)
      | Option.none => Option.none

/-- Body of a Python string literal after the opening quote `quote`;
unknown escapes keep the backslash, as CPython does. -/
def pyStringChars (quote : Char) : List Char → Option (List Char × List Char)
  | [] => Option.none
  | c :: cs =>
    if c = quote then some ([], cs)
    else if c = '\\' then
      match cs with
      | [] => Option.none
      | e :: cs2 =>
        let mapped : List Char :=
          if e = '\\' then ['\\']
          else if e = '\'' then ['\'']
          else if e = '"' then ['"']
          else if e = 'n' then ['\n']
          else if e = 't' then ['\t']
          else if e = 'r' then ['\r']
          else ['\\', e]
        match pyStringChars quote cs2 with
        | some (l, r) => some (mapped ++ l, r)
        | Option.none => Option.none
    else
      match pyStringChars quote cs with
      | some (l, r) => some (c :: l, r)
      | Option.none => Option.none

mutual

/-- One JSON value (the grammar `json.loads` accepts), by recursive descent;
the `Nat` is fuel, always ample for the published entry point `jsonParse`. -/
def jsonValue : Nat → List Char → Option (PyVal × List Char)
  | 0, _ => Option.none
  | fuel + 1, cs =>
    match skipWs cs with
    | [] => Option.none
    | c :: rest =>
      if c = '{' then
        match skipWs rest with
        | '}' :: r2 => some (.dict [], r2)
        | r2 =>
          match jsonMembers fuel r2 with
          | some (kvs, r3) => some (.dict kvs, r3)
          | Option.none => Option.none
      else if c = '[' then
        match skipWs rest with
        | ']' :: r2 => some (.list [], r2)
        | r2 =>
          match jsonItems fuel r2 with
          | some (xs, r3) => some (.list xs, r3)
          | Option.none => Option.none
      else if c = '"' then
        match jsonStringChars rest with
        | some (l, r2) => some (.str ⟨l⟩, r2)
        | Option.none => Option.none
      else if c = 't' then
        match rest with
        | 'r' :: 'u' :: 'e' :: r2 => some (.bool true, r2)
        | _ => Option.none
      else if c = 'f' then
        match rest with
        | 'a' :: 'l' :: 's' :: 'e' :: r2 => some (.bool false, r2)
        | _ => Option.none
      else if c = 'n' then
        match rest with
        | 'u' :: 'l' :: 'l' :: r2 => some (.none, r2)
        | _ => Option.none
      else jsonNumber (c :: rest)

/-- The items of a non-empty JSON array, up to and including the closing
bracket. -/
def jsonItems : Nat → List Char → Option (List PyVal × List Char)
  | 0, _ => Option.none
  | fuel + 1, cs =>
    match jsonValue fuel cs with
    | some (v, r) =>
      match skipWs r with
      | ',' :: r2 =>
        match jsonItems fuel r2 with
        | some (xs, r3) => some (v :: xs, r3)
        | Option.none => Option.none
      | ']' :: r2 => some ([v], r2)
      | _ => Option.none
    | Option.none => Option.none

/-- The members of a non-empty JSON object, up to and including the closing
brace. -/
def jsonMembers : Nat → List Char → Option (List (String × PyVal) × List Char)
  | 0, _ => Option.none
  | fuel + 1, cs =>
    match cs with
    | '"' :: r =>
      match jsonStringChars r with
      | some (k, r2) =>
        match skipWs r2 with
        | ':' :: r3 =>
          match jsonValue fuel r3 with
          | some (v, r4) =>
            match skipWs r4 with
            | ',' :: r5 =>
              match jsonMembers fuel (skipWs r5) with
              | some (kvs, r6) => some ((⟨k⟩, v) :: kvs, r6)
              | Option.none => Option.none
            | '}' :: r5 => some ([(⟨k⟩, v)], r5)
            | _ => Option.none
          | Option.none => Option.none
        | _ => Option.none
      | Option.none => Option.none
    | _ => Option.none

end

/-- `json.loads` on an already-stripped string: one JSON value and nothing
but trailing whitespace after it. -/
def jsonParse (cs : List Char) : Option PyVal :=
  match jsonValue (cs.length + 2) cs with
  | some (v, r) => if (skipWs r).isEmpty then some v else Option.none
  | Option.none => Option.none

mutual

/-- One Python literal (the expression grammar `ast.literal_eval` accepts,
restricted to string dict keys), by recursive descent with fuel. -/
def pyValue : Nat → List Char → Option (PyVal × List Char)
  | 0, _ => Option.none
  | fuel + 1, cs =>
    match skipWs cs with
    | [] => Option.none
    | c :: rest =>
      if c = '(' then
        match skipWs rest with
        | ')' :: r2 => some (.tuple [], r2)
        | r2 =>
          match pySeq fuel r2 with
          | some (xs, sawComma, r3) =>
            match skipWs r3 with
            | ')' :: r4 =>
              match xs, sawComma with
              | [x], false => some (x, r4)
              | _, _ => some (.tuple xs, r4)
            | _ => Option.none
          | Option.none => Option.none
      else if c = '[' then
        match skipWs rest with
        | ']' :: r2 => some (.list [], r2)
        | r2 =>
          match pySeq fuel r2 with
          | some (xs, _, r3) =>
            match skipWs r3 with
            | ']' :: r4 => some (.list xs, r4)
            | _ => Option.none
          | Option.none => Option.none
      else if c = '{' then
        match skipWs rest with
        | '}' :: r2 => some (.dict [], r2)
        | r2 =>
          match pyDictItems fuel r2 with
          | some (kvs, r3) =>
            match skipWs r3 with
            | '}' :: r4 => some (.dict kvs, r4)
            | _ => Option.none
          | Option.none => Option.none
      else if c = '\'' ∨ c = '"' then
        match pyStringChars c rest with
        | some (l, r2) => some (.str ⟨l⟩, r2)
        | Option.none => Option.none
      else if c = 'T' then
        match rest with
        | 'r' :: 'u' :: 'e' :: r2 => some (.bool true, r2)
        | _ => Option.none
      else if c = 'F' then
        match rest with
        | 'a' :: 'l' :: 's' :: 'e' :: r2 => some (.bool false, r2)
        | _ => Option.none
      else if c = 'N' then
        match rest with
        | 'o' :: 'n' :: 'e' :: r2 => some (.none, r2)
        | _ => Option.none
      else pyNumber (c :: rest)

/-- A comma-separated sequence of Python literals; reports whether a comma
was seen (which is what makes a bare or parenthesised tuple) and tolerates
one trailing comma, as the expression grammar does. -/
def pySeq : Nat → List Char → Option (List PyVal × Bool × List Char)
  | 0, _ => Option.none
  | fuel + 1, cs =>
    match pyValue fuel cs with
    | some (v, r) =>
      match skipWs r with
      | ',' :: r2 =>
        match pySeq fuel r2 with
        | some (xs, _, r3) => some (v :: xs, true, r3)
        | Option.none => some ([v], true, r2)
      | r2 => some ([v], false, r2)
    | Option.none => Option.none

/-- The items of a non-empty Python dict literal with string keys, up to
(but not including) the closing brace. -/
def pyDictItems : Nat → List Char → Option (List (String × PyVal) × List Char)
  | 0, _ => Option.none
  | fuel + 1, cs =>
    match skipWs cs with
    | q :: r =>
      if q = '\'' ∨ q = '"' then
        match pyStringChars q r with
        | some (k, r2) =>
          match skipWs r2 with
          | ':' :: r3 =>
            match pyValue fuel r3 with
            | some (v, r4) =>
              match skipWs r4 with
              | ',' :: r5 =>
                match pyDictItems fuel r5 with
                | some (kvs, r6) => some ((⟨k⟩, v) :: kvs, r6)
                | Option.none => some ([(⟨k⟩, v)], r5)
              | r5 => some ([(⟨k⟩, v)], r5)
            | Option.none => Option.none
          | _ => Option.none
        | Option.none => Option.none
      else Option.none
    | [] => Option.none

end

/-- `ast.literal_eval` on an already-stripped string; a bare top-level
comma-separated sequence is a tuple, exactly as in the expression grammar. -/
def literalEval (cs : List Char) : Option PyVal :=
  match pySeq (cs.length + 2) cs with
  | some (xs, sawComma, r) =>
    if (skipWs r).isEmpty then
      match xs, sawComma with
      | [x], false => some x
      | _, _ => some (.tuple xs)
    else Option.none
  | Option.none => Option.none

/-- Python `s.split(",")`. -/
def splitComma : List Char → List (List Char)
  | [] => [[]]
  | c :: cs =>
    if c = ',' then [] :: splitComma cs
    else
      match splitComma cs with
      | p :: ps => (c :: p) :: ps
      | [] => [[c]]

/-- The inner `to_int` of `normalize_coordinates`: booleans are rejected
explicitly, ints pass through, floats truncate, strings are stripped and
read as `int(float(s))`; everything else is an error. -/
def to_int : PyVal → Except String Int
  | .bool _ => .error "坐标不能是bool"
  | .int n => .ok n
  | .float q => .ok (ratTrunc q)
  | .str s =>
    match pyFloatFull (pyStrip s.data) with
    | some q => .ok (ratTrunc q)
    | Option.none => .error "could not convert string to float"
  | _ => .error "坐标值无法转成数字"

/-- The inner `one_box` of `normalize_coordinates`: apply `to_int` to the
four coordinates in order. -/
def one_box (a b c d : PyVal) : Except String Rect := do
  let x1 ← to_int a
  let y1 ← to_int b
  let x2 ← to_int c
  let y2 ← to_int d
  return ⟨x1, y1, x2, y2⟩

/-- Python dict lookup; a later binding for the same key shadows an earlier
one, as repeated-key construction does. -/
def dictLookup (kvs : List (String × PyVal)) (k : String) : Option PyVal :=
  match kvs with
  | [] => Option.none
  | (k2, v) :: rest =>
    match dictLookup rest k with
    | some w => some w
    | Option.none => if k2 = k then some v else Option.none

/-- `not isinstance(x, (list, dict, tuple))`: the scalar test of the
4-element flat-list shape. -/
def notSeq : PyVal → Bool
  | .list _ => false
  | .dict _ => false
  | .tuple _ => false
  | _ => true

/-- A 2-element list or tuple, as required of each point of the two-point
shape. -/
def pairElems : PyVal → Option (PyVal × PyVal)
  | .list [a, b] => some (a, b)
  | .tuple [a, b] => some (a, b)
  | _ => Option.none

/-- Exactly four elements. -/
def asFour : List PyVal → Option (PyVal × PyVal × PyVal × PyVal)
  | [a, b, c, d] => some (a, b, c, d)
  | _ => Option.none

/-- `[[x1,y1],[x2,y2]]`: a 2-element list of 2-element point pairs. -/
def asPairOfPairs : List PyVal → Option (PyVal × PyVal × PyVal × PyVal)
  | [p, q] =>
    match pairElems p, pairElems q with
    | some (a, b), some (c, d) => some (a, b, c, d)
    | _, _ => Option.none
  | _ => Option.none

/-- The multi-box branch 4.3: `boxes.extend(normalize_coordinates(item))`
per item, any failure propagating. -/
def concatMapRecur (recur : PyVal → Except String (List Rect)) :
    List PyVal → Except String (List Rect)
  | [] => .ok []
  | v :: vs => do
    let b ← recur v
    let bs ← concatMapRecur recur vs
    return b ++ bs

/-- Blocks 2-4 of `normalize_coordinates` (dict, tuple, list, unsupported
type), dispatching on the value left after block 1's string handling;
`recur` is the full recursive call used for `boxes` and list items. -/
def normalizeDispatch (recur : PyVal → Except String (List Rect)) :
    PyVal → Except String (List Rect)
  | .dict kvs =>
    match dictLookup kvs "boxes" with
    | some (.list xs) => recur (.list xs)
    | _ =>
      if ((dictLookup kvs "x1").isSome ∧ (dictLookup kvs "y1").isSome ∧
          (dictLookup kvs "x2").isSome ∧ (dictLookup kvs "y2").isSome) then
        (one_box ((dictLookup kvs "x1").getD .none) ((dictLookup kvs "y1").getD .none)
          ((dictLookup kvs "x2").getD .none) ((dictLookup kvs "y2").getD .none)).map
          (fun b => [b])
      else if ((dictLookup kvs "left").isSome ∧ (dictLookup kvs "top").isSome ∧
          (dictLookup kvs "right").isSome ∧ (dictLookup kvs "bottom").isSome) then
        (one_box ((dictLookup kvs "left").getD .none) ((dictLookup kvs "top").getD .none)
          ((dictLookup kvs "right").getD .none) ((dictLookup kvs "bottom").getD .none)).map
          (fun b => [b])
      else if ((dictLookup kvs "x").isSome ∧ (dictLookup kvs "y").isSome ∧
          (dictLookup kvs "w").isSome ∧ (dictLookup kvs "h").isSome) then
        (do
          let xi ← to_int ((dictLookup kvs "x").getD .none)
          let wi ← to_int ((dictLookup kvs "w").getD .none)
          let yi ← to_int ((dictLookup kvs "y").getD .none)
          let hi ← to_int ((dictLookup kvs "h").getD .none)
          one_box ((dictLookup kvs "x").getD .none) ((dictLookup kvs "y").getD .none)
            (.int (xi + wi)) (.int (yi + hi))).map (fun b => [b])
      else .error "坐标 dict 不支持的结构"
  | .tuple xs =>
    match asFour xs with
    | some (a, b, c, d) => (one_box a b c d).map (fun r => [r])
    | Option.none => .error "坐标 tuple 长度必须为4"
  | .list xs =>
    if xs.isEmpty then .error "坐标列表为空"
    else
      match asFour xs with
      | some (a, b, c, d) =>
        if xs.all notSeq then (one_box a b c d).map (fun r => [r])
        else concatMapRecur recur xs
      | Option.none =>
        match asPairOfPairs xs with
        | some (a, b, c, d) => (one_box a b c d).map (fun r => [r])
        | Option.none => concatMapRecur recur xs
  | _ => .error "坐标类型不支持"

/-- Block 1.3 of `normalize_coordinates`: the 4-field comma-split fallback
for strings neither JSON nor a Python literal. -/
def comma_fallback (s : List Char) : Except String (List Rect) :=
  if s.contains ',' then
    match ((splitComma s).map pyStrip).filter (fun p => ¬p.isEmpty) with
    | [p1, p2, p3, p4] =>
      (one_box (.str ⟨p1⟩) (.str ⟨p2⟩) (.str ⟨p3⟩) (.str ⟨p4⟩)).map (fun r => [r])
    | _ => .error "坐标字符串无法解析"
  else .error "坐标字符串无法解析"

/-- `normalize_coordinates`: block 1 strips a string input and tries
`json.loads`, then `ast.literal_eval`, then the comma split, each failure
falling through to the next; the surviving value (or a non-string input)
then goes through blocks 2-4.  The fuel models Python's recursion limit:
running out is an error, never a success. -/
def normalize_coordinates : Nat → PyVal → Except String (List Rect)
  | 0, _ => .error "maximum recursion depth exceeded"
  | fuel + 1, coordinates =>
    match coordinates with
    | .str s0 =>
      let s := pyStrip s0.data
      match jsonParse s with
      | some v => normalizeDispatch (normalize_coordinates fuel) v
      | Option.none =>
        match literalEval s with
        | some v => normalizeDispatch (normalize_coordinates fuel) v
        | Option.none => comma_fallback s
    | v => normalizeDispatch (normalize_coordinates fuel) v

/-- The mode adjustment shared by `compress_image` (压缩工具 584-588) and
`upload_to_minio` (拆分 454-459): aggressive is `max(60, quality - 10)`,
ultra is `max(50, quality - 20)`, anything else leaves the quality alone. -/
def effective_quality (compression_mode : String) (quality : Int) : Int :=
  if compression_mode = "aggressive" then max 60 (quality - 10)
  else if compression_mode = "ultra" then max 50 (quality - 20)
  else quality

/-- The two candidate encodings of AUTO mode. -/
inductive Fmt where
  | JPEG
  | PNG
deriving DecidableEq, Repr

/-- `formats_to_try` of the AUTO branch: PNG first when the image carries
an alpha or palette channel (mode RGBA/LA/P), JPEG first otherwise; both
are always tried. -/
def formats_to_try (has_transparency : Bool) : List Fmt :=
  if has_transparency then [Fmt.PNG, Fmt.JPEG] else [Fmt.JPEG, Fmt.PNG]

/-- Trial file written for a candidate format
(`f"...base_temp.\x7bfmt.lower()\x7d"`). -/
def trial_path : Fmt → String
  | Fmt.JPEG => "base_temp.jpeg"
  | Fmt.PNG => "base_temp.png"

/-- Final output file after the winning candidate is renamed. -/
def final_path : Fmt → String
  | Fmt.JPEG => "base.jpg"
  | Fmt.PNG => "base.png"

/-- The AUTO-mode trial loop with the file system threaded through as the
list of files currently on disk.  `enc f = some n` means saving in format
`f` succeeds and produces `n` bytes; `none` means the save throws (the
loop's except clause then removes the trial file, so the disk is as
before).  A strictly smaller candidate replaces the best so far, whose
trial file is removed; otherwise the new trial file is removed. -/
def auto_loop_fs (enc : Fmt → Option Nat) :
    List Fmt → Option (Fmt × Nat) → List String → Option (Fmt × Nat) × List String
  | [], best, fs => (best, fs)
  | f :: rest, best, fs =>
    match enc f with
    | Option.none => auto_loop_fs enc rest best fs
    | some sz =>
      let fs1 := trial_path f :: fs
      match best with
      | Option.none => auto_loop_fs enc rest (some (f, sz)) fs1
      | some (bf, bsz) =>
        if sz < bsz then auto_loop_fs enc rest (some (f, sz)) (fs1.erase (trial_path bf))
        else auto_loop_fs enc rest best (fs1.erase (trial_path f))

/-- The whole AUTO branch of `compress_image`: run the trial loop over
`formats_to_try`, then rename the winner to its final path, or raise
`所有格式尝试都失败` (surfaced by the enclosing except as a failed result)
when every candidate failed.  Returns the outcome plus the files left on
disk, starting from an empty directory. -/
def auto_mode_fs (has_transparency : Bool) (enc : Fmt → Option Nat) :
    Except String (Fmt × Nat) × List String :=
  match auto_loop_fs enc (formats_to_try has_transparency) Option.none [] with
  | (some (bf, bsz), fs) => (.ok (bf, bsz), final_path bf :: fs.erase (trial_path bf))
  | (Option.none, fs) => (.error "所有格式尝试都失败", fs)

/-- The AUTO-mode result alone (format chosen and its byte size). -/
def auto_mode (has_transparency : Bool) (enc : Fmt → Option Nat) :
    Except String (Fmt × Nat) :=
  (auto_mode_fs has_transparency enc).1

/-- `compress_image` under AUTO format: the mode adjustment is applied to
the caller's quality once, up front, and the JPEG candidate is saved with
that adjusted quality (the PNG save takes no quality parameter). -/
def compress_image_auto (compression_mode : String) (quality : Int)
    (has_transparency : Bool) (encJPEG : Int → Option Nat) (encPNG : Option Nat) :
    Except String (Fmt × Nat) :=
  let q := effective_quality compression_mode quality
  auto_mode has_transparency (fun f => match f with
    | Fmt.JPEG => encJPEG q
    | Fmt.PNG => encPNG)

/-- Image metadata the crop needs: `img.size`. -/
structure ImgInfo where
  width : Int
  height : Int
deriving DecidableEq, Repr

/-- `ImageSplitter.crop_image`: the degenerate-rectangle check runs on the
raw coordinates FIRST; only then are `x2, y2` clamped to the image size
(when either exceeds it), and PIL's `img.crop` refuses an inverted box
(its own ValueError, not the 坐标无效 one) and returns the cropped size
otherwise. -/
def crop_image (img : ImgInfo) (r : Rect) : Except String (Int × Int) :=
  if r.x1 ≥ r.x2 ∨ r.y1 ≥ r.y2 then .error "坐标无效: 右下角必须大于左上角"
  else
    let x2 := if r.x2 > img.width ∨ r.y2 > img.height then min r.x2 img.width else r.x2
    let y2 := if r.x2 > img.width ∨ r.y2 > img.height then min r.y2 img.height else r.y2
    if x2 < r.x1 then .error "Coordinate right is less than left"
    else if y2 < r.y1 then .error "Coordinate lower is less than upper"
    else .ok (x2 - r.x1, y2 - r.y1)

/-- One entry of the `results` list built by `process_image`. -/
structure RegionResult where
  index : Nat
  coordinates : Rect
  minio_url : String
  size : Int × Int
deriving DecidableEq, Repr

/-- What `process_image` returns: the success flag, the per-region results
(empty on failure) and the error string of a failed run. -/
structure PipelineResult where
  success : Bool
  results : List RegionResult
  error : Option String
deriving DecidableEq, Repr

/-- The region loop of `process_image`.  `upload i` is the outcome of
`upload_to_minio` for region `i` (its URL, or the exception it raises).
Returns the 1-based indices of the regions actually attempted and either
all results or the first exception: the loop body runs inside the single
try of `process_image`, so the first failure propagates out of the loop. -/
def process_regions (img : ImgInfo) (upload : Nat → Except String String) :
    List Rect → Nat → List Nat × Except String (List RegionResult)
  | [], _ => ([], .ok [])
  | r :: rest, i =>
    match crop_image img r with
    | .error e => ([i], .error e)
    | .ok sz =>
      match upload i with
      | .error e => ([i], .error e)
      | .ok url =>
        let (tr, res) := process_regions img upload rest (i + 1)
        (i :: tr,
          match res with
          | .ok rs => .ok (⟨i, r, url, sz⟩ :: rs)
          | .error e => .error e)

/-- `ImageSplitter.process_image`: download, normalize the coordinates,
loop over the regions; any exception is caught and turned into a
`success=False` dict, and the `finally` clause deletes the downloaded file
whenever `cleanup_downloaded` is set.  Returns the result, the attempted
region indices, and the local files left behind. -/
def process_image (fuel : Nat) (downloadOk : Bool) (img : ImgInfo)
    (upload : Nat → Except String String) (cleanup_downloaded : Bool)
    (coordinates : PyVal) : PipelineResult × List Nat × List String :=
  if ¬downloadOk then (⟨false, [], some "下载图片失败"⟩, [], [])
  else
    let leftover := if cleanup_downloaded then [] else ["downloaded.jpg"]
    match normalize_coordinates fuel coordinates with
    | .error e => (⟨false, [], some e⟩, [], leftover)
    | .ok rects =>
      match process_regions img upload rects 1 with
      | (tr, .error e) => (⟨false, [], some e⟩, tr, leftover)
      | (tr, .ok rs) => (⟨true, rs, Option.none⟩, tr, leftover)

/-- Result dict of the compressor entry points. -/
structure CompressOutcome where
  success : Bool
  error : Option String
deriving DecidableEq, Repr

/-- `download_and_compress_from_minio`: download (failures come back as a
result dict), write the image to a fresh temporary file, hand it to
`compress_image` (which catches its own exceptions and returns a dict),
then `os.remove` the temporary file.  The removal is ordinary sequential
code inside the try, not a `finally` clause: an exception raised by the
intermediate `img.save` (e.g. saving an RGBA download as JPEG) jumps to
the except clause with the temporary file still on disk.  Returns the
outcome and the files left behind. -/
def download_and_compress_from_minio (downloadOk saveOk compressOk : Bool) :
    CompressOutcome × List String :=
  if ¬downloadOk then (⟨false, some "无法下载图片"⟩, [])
  else
    let fs := ["temp_intermediate.jpg"]
    if ¬saveOk then (⟨false, some "cannot write mode RGBA as JPEG"⟩, fs)
    else
      let result : CompressOutcome :=
        if compressOk then ⟨true, Option.none⟩ else ⟨false, some "压缩失败"⟩
      (result, fs.erase "temp_intermediate.jpg")

/-- `http_health_probe`: GET the health path in the given protocol;
`respond b` is the status the endpoint answers with when probed with
`use_ssl = b`, or `none` when the request raises.  True exactly on the
statuses 200, 204, 401, 403. -/
def http_health_probe (respond : Bool → Option Nat) (use_ssl : Bool) : Bool :=
  match respond use_ssl with
  | some status => status == 200 || status == 204 || status == 401 || status == 403
  | Option.none => false

/-- `auto_fix_secure_by_probe`: skip everything when the preflight is
disabled; keep the guess when its probe succeeds; otherwise probe the
opposite protocol once and flip if that succeeds; keep the guess when both
fail.  Total: it always returns a Bool. -/
def auto_fix_secure_by_probe (preflight_minio_health : Bool)
    (respond : Bool → Option Nat) (secure_guess : Bool) : Bool :=
  if !preflight_minio_health then secure_guess
  else if http_health_probe respond secure_guess then secure_guess
  else if http_health_probe respond (!secure_guess) then !secure_guess
  else secure_guess

/-- C5: the mode adjustment is applied exactly once, before any encoding
attempt: aggressive computes `max(60, quality - 10)`, ultra computes
`max(50, quality - 20)`, normal leaves the quality unchanged; base quality
65 yields 60 under aggressive and 50 under ultra; and running the AUTO
pipeline in mode `m` is the same as running it with no adjustment on the
already-adjusted quality (so the adjustment is not applied a second time
at any encoding attempt). -/
theorem C5_mode_adjustment :
    (∀ q : Int, effective_quality "aggressive" q = max 60 (q - 10)) ∧
    (∀ q : Int, effective_quality "ultra" q = max 50 (q - 20)) ∧
    (∀ q : Int, effective_quality "normal" q = q) ∧
    effective_quality "aggressive" 65 = 60 ∧
    effective_quality "ultra" 65 = 50 ∧
    (∀ (m : String) (q : Int) (hasT : Bool) (encJPEG : Int → Option Nat)
        (encPNG : Option Nat),
        compress_image_auto m q hasT encJPEG encPNG =
          compress_image_auto "normal" (effective_quality m q) hasT encJPEG encPNG) := by
  refine ⟨fun q => by simp [effective_quality], fun q => by simp [effective_quality],
    fun q => by simp [effective_quality], by decide, by decide, ?_⟩
  intro m q hasT encJPEG encPNG
  simp [compress_image_auto, effective_quality]

/-- C2 counterexample: a caller-supplied quality of 55 (inside 1..100)
under aggressive mode yields effective quality 60, which EXCEEDS the
caller-supplied quality, refuting clamped-never-exceeds as stated. -/
theorem C2_counterexample :
    ((1 : Int) ≤ 55 ∧ (55 : Int) ≤ 100) ∧
    effective_quality "aggressive" 55 = 60 ∧
    ¬(effective_quality "aggressive" 55 ≤ 55) := by
  refine ⟨by decide, by decide, by decide⟩

/-- C2 amended: the effective quality never exceeds `max(quality, floor)`
(floor 60 for aggressive, 50 for ultra); it never exceeds the
caller-supplied quality itself only when that quality is at least the
mode's floor, and normal mode never changes it. -/
theorem C2_effective_quality_floor :
    ∀ q : Int, 1 ≤ q → q ≤ 100 →
      effective_quality "normal" q ≤ q ∧
      effective_quality "aggressive" q ≤ max q 60 ∧
      effective_quality "ultra" q ≤ max q 50 ∧
      (60 ≤ q → effective_quality "aggressive" q ≤ q) ∧
      (50 ≤ q → effective_quality "ultra" q ≤ q) := by
  intro q h1 h2
  refine ⟨?_, ?_, ?_, ?_, ?_⟩ <;> simp [effective_quality] <;> omega

/-- C2 amended witness at quality 85: under every mode the effective
quality stays at or below 85. -/
theorem C2_amended_witness :
    effective_quality "normal" 85 ≤ 85 ∧
    effective_quality "aggressive" 85 ≤ 85 ∧
    effective_quality "ultra" 85 ≤ 85 := by
  have h := C2_effective_quality_floor 85 (by decide) (by decide)
  exact ⟨h.1, h.2.2.2.1 (by decide), h.2.2.2.2 (by decide)⟩

/-- Closed form of `crop_image`: the raw-coordinate check first, then PIL's
inverted-box checks against the clamped corner `(min x2 w, min y2 h)`. -/
theorem crop_image_eq :
    ∀ (img : ImgInfo) (r : Rect),
      crop_image img r =
        if r.x1 ≥ r.x2 ∨ r.y1 ≥ r.y2 then .error "坐标无效: 右下角必须大于左上角"
        else if min r.x2 img.width < r.x1 then .error "Coordinate right is less than left"
        else if min r.y2 img.height < r.y1 then .error "Coordinate lower is less than upper"
        else .ok (min r.x2 img.width - r.x1, min r.y2 img.height - r.y1) := by
  intro img r
  unfold crop_image
  by_cases h0 : r.x1 ≥ r.x2 ∨ r.y1 ≥ r.y2
  · rw [if_pos h0, if_pos h0]
  · rw [if_neg h0, if_neg h0]
    by_cases hc : r.x2 > img.width ∨ r.y2 > img.height
    · simp only [hc, if_true]
    · simp only [hc, if_false]
      push_neg at hc
      rw [min_eq_left hc.1, min_eq_left hc.2]

/-- C3 counterexample: on a 100x100 image, the rectangle (100, 0, 400, 50)
has `x2` beyond the image width; after the clamping the claim describes,
`x1 = 100 ≥ min 400 100 = 100`, so the claim demands an InvalidRectangle
failure — but `crop_image` checks the raw coordinates before clamping and
happily returns a zero-width crop. -/
theorem C3_counterexample :
    ((100 : Int) ≥ min 400 100) ∧
    crop_image ⟨100, 100⟩ ⟨100, 0, 400, 50⟩ = .ok (0, 50) := by
  exact ⟨by decide, rfl⟩

/-- C3 amended: the InvalidRectangle check runs on the ORIGINAL
coordinates, before any clamping (`crop_image` fails with 坐标无效 exactly
when `x1 ≥ x2` or `y1 ≥ y2` as supplied); `x2, y2` are then clamped down
to the image bounds, and a rectangle whose `x2` exceeds the image width
but whose clamped region is still non-degenerate is cropped successfully
to the clamped size. -/
theorem C3_crop_clamp_check :
    ∀ (img : ImgInfo) (r : Rect),
      (crop_image img r = .error "坐标无效: 右下角必须大于左上角" ↔
        r.x1 ≥ r.x2 ∨ r.y1 ≥ r.y2) ∧
      (r.x1 < r.x2 → r.y1 < r.y2 → r.x1 ≤ min r.x2 img.width →
        r.y1 ≤ min r.y2 img.height →
        crop_image img r =
          .ok (min r.x2 img.width - r.x1, min r.y2 img.height - r.y1)) := by
  intro img r
  rw [crop_image_eq]
  constructor
  · constructor
    · intro h
      split at h
      · assumption
      · split at h
        · simp at h
        · split at h <;> simp at h
    · intro h
      rw [if_pos h]
  · intro h1 h2 h3 h4
    rw [if_neg (by omega), if_neg (by omega), if_neg (by omega)]

/-- C3 amended witness: the rectangle (100, 100, 400, 400) on a 300x1000
image is non-degenerate, has `x2` beyond the width, and is cropped to the
clamped size 200x300. -/
theorem C3_amended_witness :
    crop_image ⟨300, 1000⟩ ⟨100, 100, 400, 400⟩ = .ok (200, 300) := by
  have h := (C3_crop_clamp_check ⟨300, 1000⟩ ⟨100, 100, 400, 400⟩).2
    (by decide) (by decide) (by decide) (by decide)
  simpa using h

/-- C6: `auto_fix_secure_by_probe` is total and behaves exactly as
claimed: the guess is returned unchanged when the preflight is disabled or
when the probe in the guessed protocol succeeds; when the guessed probe
fails and the opposite-protocol probe succeeds the flipped value is
returned; when both fail the original guess is returned; and a probe
succeeds exactly when the endpoint answers with status 200, 204, 401 or
403. -/
theorem C6_resolve_security :
    (∀ (respond : Bool → Option Nat) (g : Bool),
        auto_fix_secure_by_probe false respond g = g) ∧
    (∀ (respond : Bool → Option Nat) (g : Bool),
        http_health_probe respond g = true →
        ∀ pre, auto_fix_secure_by_probe pre respond g = g) ∧
    (∀ (respond : Bool → Option Nat) (g : Bool),
        http_health_probe respond g = false →
        http_health_probe respond (!g) = true →
        auto_fix_secure_by_probe true respond g = !g) ∧
    (∀ (respond : Bool → Option Nat) (g : Bool),
        http_health_probe respond g = false →
        http_health_probe respond (!g) = false →
        ∀ pre, auto_fix_secure_by_probe pre respond g = g) ∧
    (∀ (respond : Bool → Option Nat) (b : Bool),
        http_health_probe respond b = true ↔
          ∃ s, respond b = some s ∧ (s = 200 ∨ s = 204 ∨ s = 401 ∨ s = 403)) := by
  refine ⟨fun respond g => by simp [auto_fix_secure_by_probe], ?_, ?_, ?_, ?_⟩
  · intro respond g h pre
    cases pre <;> simp [auto_fix_secure_by_probe, h]
  · intro respond g h1 h2
    simp [auto_fix_secure_by_probe, h1, h2]
  · intro respond g h1 h2 pre
    cases pre <;> simp [auto_fix_secure_by_probe, h1, h2]
  · intro respond b
    cases h : respond b with
    | none => simp [http_health_probe, h]
    | some s =>
      simp [http_health_probe, h]
      omega

/-- C6 witness: an endpoint that answers 200 only in plaintext flips a
`secure = true` guess to `false`. -/
theorem C6_witness :
    auto_fix_secure_by_probe true (fun b => if b then Option.none else some 200) true =
      false := by
  have h := C6_resolve_security.2.2.1 (fun b => if b then Option.none else some 200) true
    (by rfl) (by rfl)
  simpa using h

/-- C4: AUTO mode tries both encodings (PNG first on alpha/palette
sources, JPEG first otherwise), keeps the strictly smallest successful
candidate, skips a candidate whose save throws, and raises the
all-formats-failed error exactly when both candidates fail; in particular
on an opaque truecolor source it never picks PNG when PNG came out larger
than JPEG. -/
theorem C4_auto_best :
    (formats_to_try true = [Fmt.PNG, Fmt.JPEG] ∧
      formats_to_try false = [Fmt.JPEG, Fmt.PNG]) ∧
    (∀ (hasT : Bool) (enc : Fmt → Option Nat),
        auto_mode hasT enc = .error "所有格式尝试都失败" ↔
          enc Fmt.JPEG = Option.none ∧ enc Fmt.PNG = Option.none) ∧
    (∀ (hasT : Bool) (enc : Fmt → Option Nat) (j p : Nat),
        enc Fmt.JPEG = some j → enc Fmt.PNG = some p →
        ∃ f, auto_mode hasT enc = .ok (f, min j p)) ∧
    (∀ (enc : Fmt → Option Nat) (j p : Nat),
        enc Fmt.JPEG = some j → enc Fmt.PNG = some p → j < p →
        auto_mode false enc = .ok (Fmt.JPEG, j)) ∧
    (∀ (hasT : Bool) (enc : Fmt → Option Nat) (j : Nat),
        enc Fmt.JPEG = some j → enc Fmt.PNG = Option.none →
        auto_mode hasT enc = .ok (Fmt.JPEG, j)) ∧
    (∀ (hasT : Bool) (enc : Fmt → Option Nat) (p : Nat),
        enc Fmt.JPEG = Option.none → enc Fmt.PNG = some p →
        auto_mode hasT enc = .ok (Fmt.PNG, p)) := by
  refine ⟨⟨rfl, rfl⟩, ?_, ?_, ?_, ?_, ?_⟩
  · intro hasT enc
    rcases hJ : enc Fmt.JPEG with _ | j <;> rcases hP : enc Fmt.PNG with _ | p
    · cases hasT <;> simp [auto_mode, auto_mode_fs, auto_loop_fs, formats_to_try, hJ, hP]
    · cases hasT <;> simp [auto_mode, auto_mode_fs, auto_loop_fs, formats_to_try, hJ, hP]
    · cases hasT <;> simp [auto_mode, auto_mode_fs, auto_loop_fs, formats_to_try, hJ, hP]
    · cases hasT
      · by_cases hlt : p < j <;>
          simp [auto_mode, auto_mode_fs, auto_loop_fs, formats_to_try, hJ, hP, hlt]
      · by_cases hlt : j < p <;>
          simp [auto_mode, auto_mode_fs, auto_loop_fs, formats_to_try, hJ, hP, hlt]
  · intro hasT enc j p hJ hP
    cases hasT
    · by_cases hlt : p < j
      · exact ⟨Fmt.PNG, by
          simp [auto_mode, auto_mode_fs, auto_loop_fs, formats_to_try, hJ, hP, hlt]
          omega⟩
      · exact ⟨Fmt.JPEG, by
          simp [auto_mode, auto_mode_fs, auto_loop_fs, formats_to_try, hJ, hP, hlt]
          omega⟩
    · by_cases hlt : j < p
      · exact ⟨Fmt.JPEG, by
          simp [auto_mode, auto_mode_fs, auto_loop_fs, formats_to_try, hJ, hP, hlt]
          omega⟩
      · exact ⟨Fmt.PNG, by
          simp [auto_mode, auto_mode_fs, auto_loop_fs, formats_to_try, hJ, hP, hlt]
          omega⟩
  · intro enc j p hJ hP hlt
    simp [auto_mode, auto_mode_fs, auto_loop_fs, formats_to_try, hJ, hP,
      Nat.not_lt.mpr (Nat.le_of_lt hlt)]
  · intro hasT enc j hJ hP
    cases hasT <;> simp [auto_mode, auto_mode_fs, auto_loop_fs, formats_to_try, hJ, hP]
  · intro hasT enc p hJ hP
    cases hasT <;> simp [auto_mode, auto_mode_fs, auto_loop_fs, formats_to_try, hJ, hP]

/-- C4 witness: an opaque truecolor source whose JPEG trial is 10 bytes
and PNG trial 20 bytes gets JPEG. -/
theorem C4_witness :
    auto_mode false (fun f => match f with
      | Fmt.JPEG => some 10
      | Fmt.PNG => some 20) = .ok (Fmt.JPEG, 10) :=
  C4_auto_best.2.2.2.1 _ 10 20 rfl rfl (by decide)

/-- C8: the four scalar encodings of one rectangle — the 4-tuple, the flat
4-list, the `x1/y1/x2/y2` mapping and the `left/top/right/bottom` mapping
— normalize to the same single canonical rectangle, for every integer
rectangle and any recursion budget. -/
theorem C8_four_encodings :
    ∀ (fuel : Nat) (x1 y1 x2 y2 : Int),
      normalize_coordinates (fuel + 1)
          (.tuple [.int x1, .int y1, .int x2, .int y2]) = .ok [⟨x1, y1, x2, y2⟩] ∧
      normalize_coordinates (fuel + 1)
          (.list [.int x1, .int y1, .int x2, .int y2]) = .ok [⟨x1, y1, x2, y2⟩] ∧
      normalize_coordinates (fuel + 1)
          (.dict [("x1", .int x1), ("y1", .int y1), ("x2", .int x2), ("y2", .int y2)]) =
        .ok [⟨x1, y1, x2, y2⟩] ∧
      normalize_coordinates (fuel + 1)
          (.dict [("left", .int x1), ("top", .int y1), ("right", .int x2),
            ("bottom", .int y2)]) = .ok [⟨x1, y1, x2, y2⟩] := by
  intro fuel x1 y1 x2 y2
  exact ⟨rfl, rfl, rfl, rfl⟩

/-- C7: a string input is stripped and fed to `json.loads` first; on
failure to `ast.literal_eval`; on failure to the 4-field comma split (all
three failing is the malformed-input error); whichever structured parse
succeeds, its value goes through the ordinary shape dispatch.  In
particular `"100,100,400,400"` normalizes to exactly the one rectangle
(100,100,400,400), and a string all three strategies reject is an error. -/
theorem C7_string_strategies :
    (∀ (n : Nat) (s : String) (v : PyVal),
        jsonParse (pyStrip s.data) = some v →
        normalize_coordinates (n + 1) (.str s) =
          normalizeDispatch (normalize_coordinates n) v) ∧
    (∀ (n : Nat) (s : String) (v : PyVal),
        jsonParse (pyStrip s.data) = Option.none →
        literalEval (pyStrip s.data) = some v →
        normalize_coordinates (n + 1) (.str s) =
          normalizeDispatch (normalize_coordinates n) v) ∧
    (∀ (n : Nat) (s : String),
        jsonParse (pyStrip s.data) = Option.none →
        literalEval (pyStrip s.data) = Option.none →
        normalize_coordinates (n + 1) (.str s) = comma_fallback (pyStrip s.data)) ∧
    normalize_coordinates 1 (.str "100,100,400,400") = .ok [⟨100, 100, 400, 400⟩] ∧
    normalize_coordinates 1 (.str "not coordinates") = .error "坐标字符串无法解析" := by
  refine ⟨?_, ?_, ?_, rfl, rfl⟩
  · intro n s v h
    simp [normalize_coordinates, h]
  · intro n s v h1 h2
    simp [normalize_coordinates, h1, h2]
  · intro n s h1 h2
    simp [normalize_coordinates, h1, h2]

/-- C7 witness: `"[1,2,3,4]"` parses as JSON, so strategy one fires and
hands the parsed list to the shape dispatch. -/
theorem C7_witness :
    normalize_coordinates 3 (.str "[1,2,3,4]") =
      normalizeDispatch (normalize_coordinates 2)
        (.list [.int 1, .int 2, .int 3, .int 4]) :=
  C7_string_strategies.1 2 "[1,2,3,4]" (.list [.int 1, .int 2, .int 3, .int 4]) rfl

/-- A single-box branch wraps its `one_box` result as a one-element list. -/
theorem exceptMap_singleton_pos :
    ∀ (e : Except String Rect) (rs : List Rect),
      Except.map (fun b => [b]) e = .ok rs → 0 < rs.length := by
  intro e rs h
  cases e with
  | error msg => simp [Except.map] at h
  | ok b =>
    simp [Except.map] at h
    simp [← h]

/-- Four elements means the list is exactly a 4-element cons chain. -/
theorem asFour_eq_some :
    ∀ (xs : List PyVal) (p : PyVal × PyVal × PyVal × PyVal),
      asFour xs = some p → xs = [p.1, p.2.1, p.2.2.1, p.2.2.2] := by
  intro xs p h
  match xs with
  | [a, b, c, d] => simp [asFour] at h; simp [← h]
  | [] => simp [asFour] at h
  | [a] => simp [asFour] at h
  | [a, b] => simp [asFour] at h
  | [a, b, c] => simp [asFour] at h
  | a :: b :: c :: d :: e :: rest => simp [asFour] at h

/-- The multi-box loop over a non-empty list returns at least the first
item's rectangles. -/
theorem concatMapRecur_ok_pos (recur : PyVal → Except String (List Rect))
    (h : ∀ v rs, recur v = .ok rs → 0 < rs.length) :
    ∀ (v : PyVal) (vs : List PyVal) (rs : List Rect),
      concatMapRecur recur (v :: vs) = .ok rs → 0 < rs.length := by
  intro v vs rs hok
  rcases hb : recur v with msg | b
  · simp [concatMapRecur, hb, Bind.bind, Except.bind] at hok
  · rcases hrest : concatMapRecur recur vs with msg | bs
    · simp [concatMapRecur, hb, hrest, Bind.bind, Except.bind, Functor.map,
        Except.map] at hok
    · simp [concatMapRecur, hb, hrest, Bind.bind, Except.bind, Functor.map,
        Except.map, pure, Except.pure] at hok
      have hb2 := h v b hb
      subst hok
      simp only [List.length_append]
      omega

/-- Every successful branch of the shape dispatch yields at least one
rectangle, assuming the recursive call does. -/
theorem normalizeDispatch_ok_pos (recur : PyVal → Except String (List Rect))
    (h : ∀ v rs, recur v = .ok rs → 0 < rs.length) :
    ∀ (v : PyVal) (rs : List Rect),
      normalizeDispatch recur v = .ok rs → 0 < rs.length := by
  intro v rs hok
  cases v with
  | dict kvs =>
    simp only [normalizeDispatch] at hok
    split at hok
    · exact h _ _ hok
    · split at hok
      · exact exceptMap_singleton_pos _ _ hok
      · split at hok
        · exact exceptMap_singleton_pos _ _ hok
        · split at hok
          · exact exceptMap_singleton_pos _ _ hok
          · simp at hok
  | tuple xs =>
    simp only [normalizeDispatch] at hok
    split at hok
    · exact exceptMap_singleton_pos _ _ hok
    · simp at hok
  | list xs =>
    simp only [normalizeDispatch] at hok
    split at hok
    · simp at hok
    · rename_i hne
      split at hok
      · rename_i a b c d hfour
        split at hok
        · exact exceptMap_singleton_pos _ _ hok
        · have hxs := asFour_eq_some xs (a, b, c, d) hfour
          subst hxs
          exact concatMapRecur_ok_pos recur h _ _ _ hok
      · split at hok
        · exact exceptMap_singleton_pos _ _ hok
        · cases xs with
          | nil => simp at hne
          | cons a as => exact concatMapRecur_ok_pos recur h _ _ _ hok
  | int n => simp [normalizeDispatch] at hok
  | float q => simp [normalizeDispatch] at hok
  | bool b => simp [normalizeDispatch] at hok
  | str s => simp [normalizeDispatch] at hok
  | none => simp [normalizeDispatch] at hok

/-- A successful comma-split fallback is always a single rectangle. -/
theorem comma_fallback_ok_pos :
    ∀ (s : List Char) (rs : List Rect), comma_fallback s = .ok rs → 0 < rs.length := by
  intro s rs hok
  simp only [comma_fallback] at hok
  split at hok
  · split at hok
    · exact exceptMap_singleton_pos _ _ hok
    · simp at hok
  · simp at hok

/-- Every successful normalization yields at least one rectangle. -/
theorem normalize_coordinates_ok_pos :
    ∀ (fuel : Nat) (v : PyVal) (rects : List Rect),
      normalize_coordinates fuel v = .ok rects → 0 < rects.length := by
  intro fuel
  induction fuel with
  | zero =>
    intro v rs h
    simp [normalize_coordinates] at h
  | succ n ih =>
    intro v rs h
    cases v with
    | str s0 =>
      simp only [normalize_coordinates] at h
      split at h
      · exact normalizeDispatch_ok_pos _ ih _ _ h
      · split at h
        · exact normalizeDispatch_ok_pos _ ih _ _ h
        · exact comma_fallback_ok_pos _ _ h
    | int m =>
      simp only [normalize_coordinates] at h
      exact normalizeDispatch_ok_pos _ ih _ _ h
    | float q =>
      simp only [normalize_coordinates] at h
      exact normalizeDispatch_ok_pos _ ih _ _ h
    | bool b =>
      simp only [normalize_coordinates] at h
      exact normalizeDispatch_ok_pos _ ih _ _ h
    | list xs =>
      simp only [normalize_coordinates] at h
      exact normalizeDispatch_ok_pos _ ih _ _ h
    | tuple xs =>
      simp only [normalize_coordinates] at h
      exact normalizeDispatch_ok_pos _ ih _ _ h
    | dict kvs =>
      simp only [normalize_coordinates] at h
      exact normalizeDispatch_ok_pos _ ih _ _ h
    | none =>
      simp only [normalize_coordinates] at h
      exact normalizeDispatch_ok_pos _ ih _ _ h

/-- C10: normalizing an empty list raises (坐标列表为空) rather than
returning an empty sequence, and indeed every successful normalization
yields at least one rectangle. -/
theorem C10_nonempty :
    (∀ fuel : Nat, normalize_coordinates (fuel + 1) (.list []) = .error "坐标列表为空") ∧
    (∀ (fuel : Nat) (v : PyVal) (rects : List Rect),
        normalize_coordinates fuel v = .ok rects → 0 < rects.length) := by
  exact ⟨fun fuel => rfl, normalize_coordinates_ok_pos⟩

/-- C10 witness: the empty list errors at budget 1, and the successful
normalization of one concrete tuple has positive length. -/
theorem C10_witness :
    normalize_coordinates 1 (.list []) = .error "坐标列表为空" ∧
    0 < ([(⟨1, 2, 3, 4⟩ : Rect)] : List Rect).length :=
  ⟨C10_nonempty.1 0,
    C10_nonempty.2 1 (.tuple [.int 1, .int 2, .int 3, .int 4]) [⟨1, 2, 3, 4⟩] rfl⟩

/-- C1 counterexample: a batch of 3 regions on a 1000x1000 image where
region 2 is degenerate (x1=500 ≥ x2=400, the InvalidRectangle error).
The claim demands that regions 1 and 3 are still attempted and their
results returned; `process_image` instead aborts at region 2 (the
attempted indices are exactly [1, 2]) and returns success=false with NO
per-region results — region 1's upload is discarded and region 3 is never
attempted. -/
theorem C1_counterexample :
    process_image 2 true ⟨1000, 1000⟩ (fun _ => .ok "http minio url") true
      (.list [.tuple [.int 100, .int 100, .int 400, .int 400],
              .tuple [.int 500, .int 200, .int 400, .int 600],
              .tuple [.int 100, .int 500, .int 500, .int 900]]) =
      (⟨false, [], some "坐标无效: 右下角必须大于左上角"⟩, [1, 2], []) := rfl

/-- C1 amended: a failure while processing one rectangle ABORTS the batch:
the run returns success=false carrying no per-region results at all, a
failing region is the last one attempted (the rest of the batch is
dropped), and only a run in which every region succeeds reports results,
one per region. -/
theorem C1_batch_abort :
    (∀ (fuel : Nat) (dOk : Bool) (img : ImgInfo)
        (upload : Nat → Except String String) (cl : Bool) (coords : PyVal),
        (process_image fuel dOk img upload cl coords).1.success = false →
        (process_image fuel dOk img upload cl coords).1.results = []) ∧
    (∀ (img : ImgInfo) (upload : Nat → Except String String) (r : Rect)
        (rest : List Rect) (start : Nat) (e : String),
        crop_image img r = .error e →
        process_regions img upload (r :: rest) start = ([start], .error e)) ∧
    (∀ (img : ImgInfo) (upload : Nat → Except String String) (rects : List Rect)
        (start : Nat) (rs : List RegionResult),
        (process_regions img upload rects start).2 = .ok rs →
        rs.length = rects.length) := by
  refine ⟨?_, ?_, ?_⟩
  · intro fuel dOk img upload cl coords h
    by_cases hd : dOk
    · simp only [process_image, hd, not_true, if_false] at h ⊢
      rcases hn : normalize_coordinates fuel coords with msg | rects
      · simp [hn]
      · simp only [hn] at h ⊢
        rcases hp : process_regions img upload rects 1 with ⟨tr, res⟩
        cases res with
        | error e => simp [hp]
        | ok rs => simp [hp] at h
    · simp [process_image, hd]
  · intro img upload r rest start e h
    simp [process_regions, h]
  · intro img upload rects
    induction rects with
    | nil =>
      intro start rs h
      simp [process_regions] at h
      simp [← h]
    | cons r rest ih =>
      intro start rs h
      rcases hc : crop_image img r with e | sz
      · simp [process_regions, hc] at h
      · rcases hu : upload start with e | url
        · simp [process_regions, hc, hu] at h
        · simp only [process_regions, hc, hu] at h
          rcases hp : process_regions img upload rest (start + 1) with ⟨tr, res⟩
          rw [hp] at h
          cases res with
          | error e2 => simp at h
          | ok rs2 =>
            simp at h
            have := ih (start + 1) rs2 (by rw [hp])
            simp [← h, this]

/-- C1 amended witness: a first region that fails stops the loop at once;
with two further regions pending, only index 1 is attempted. -/
theorem C1_amended_witness :
    process_regions ⟨1000, 1000⟩ (fun _ => .ok "u") 
      [⟨500, 200, 400, 600⟩, ⟨100, 100, 400, 400⟩, ⟨100, 500, 500, 900⟩] 1 =
      ([1], .error "坐标无效: 右下角必须大于左上角") :=
  C1_batch_abort.2.1 ⟨1000, 1000⟩ (fun _ => .ok "u") ⟨500, 200, 400, 600⟩
    [⟨100, 100, 400, 400⟩, ⟨100, 500, 500, 900⟩] 1 _ rfl

/-- C9 counterexample: when the download succeeds but the intermediate
`img.save` raises (e.g. an RGBA download written as JPEG), the operation
takes its failure path with the just-created temporary file still on
disk: the removal is plain sequential code, not a finally clause. -/
theorem C9_counterexample :
    download_and_compress_from_minio true false true =
      (⟨false, some "cannot write mode RGBA as JPEG"⟩, ["temp_intermediate.jpg"]) := rfl

/-- Invariant of the AUTO trial loop: starting from a disk holding exactly
the current best candidate's trial file, it ends holding exactly the final
best candidate's trial file. -/
theorem auto_loop_fs_inv :
    ∀ (enc : Fmt → Option Nat) (fmts : List Fmt) (best : Option (Fmt × Nat)),
      (auto_loop_fs enc fmts best
          (match best with
            | some (bf, _) => [trial_path bf]
            | Option.none => [])).2 =
        (match (auto_loop_fs enc fmts best
            (match best with
              | some (bf, _) => [trial_path bf]
              | Option.none => [])).1 with
          | some (bf, _) => [trial_path bf]
          | Option.none => []) := by
  intro enc fmts
  induction fmts with
  | nil => intro best; cases best <;> rfl
  | cons f rest ih =>
    intro best
    rcases he : enc f with _ | sz
    · cases best with
      | none =>
        simp only [auto_loop_fs, he]
        exact ih Option.none
      | some bp =>
        rcases bp with ⟨bf, bsz⟩
        simp only [auto_loop_fs, he]
        exact ih (some (bf, bsz))
    · cases best with
      | none =>
        simp only [auto_loop_fs, he]
        exact ih (some (f, sz))
      | some bp =>
        rcases bp with ⟨bf, bsz⟩
        by_cases hlt : sz < bsz
        · have herase : List.erase (trial_path f :: [trial_path bf]) (trial_path bf) =
              [trial_path f] := by
            by_cases hfb : trial_path f = trial_path bf
            · rw [hfb]
              simp [List.erase_cons]
            · simp [List.erase_cons, hfb]
          simp only [auto_loop_fs, he, if_pos hlt, herase]
          exact ih (some (f, sz))
        · have herase : List.erase (trial_path f :: [trial_path bf]) (trial_path f) =
              [trial_path bf] := by
            simp [List.erase_cons]
          simp only [auto_loop_fs, he, if_neg hlt, herase]
          exact ih (some (bf, bsz))

/-- C9 amended: the cleanup that does happen.  (1) Whenever the
intermediate save succeeds, the compressor's temporary file is removed on
the success path AND on the compression-failure path (the leak is only the
exception path witnessed by the counterexample).  (2) No AUTO-mode trial
file survives `compress_image`, whether the candidates succeed or fail.
(3) With `cleanup_downloaded` set, the splitter's downloaded source file
is removed on both the success and the failure path (it is deleted in a
finally clause). -/
theorem C9_cleanup :
    (∀ dOk cOk : Bool, (download_and_compress_from_minio dOk true cOk).2 = []) ∧
    (∀ (hasT : Bool) (enc : Fmt → Option Nat) (f : Fmt),
        trial_path f ∉ (auto_mode_fs hasT enc).2) ∧
    (∀ (fuel : Nat) (dOk : Bool) (img : ImgInfo)
        (upload : Nat → Except String String) (coords : PyVal),
        (process_image fuel dOk img upload true coords).2.2 = []) := by
  refine ⟨?_, ?_, ?_⟩
  · intro dOk cOk
    cases dOk <;> cases cOk <;> rfl
  · intro hasT enc f
    have hinv := auto_loop_fs_inv enc (formats_to_try hasT) Option.none
    rcases hloop : auto_loop_fs enc (formats_to_try hasT) Option.none [] with ⟨b, fs⟩
    rw [hloop] at hinv
    simp only [auto_mode_fs, hloop]
    cases b with
    | none =>
      simp only at hinv
      simp [hinv]
    | some bp =>
      rcases bp with ⟨bf, bsz⟩
      simp only at hinv
      simp only [hinv]
      cases f <;> cases bf <;> decide
  · intro fuel dOk img upload coords
    by_cases hd : dOk
    · rcases hn : normalize_coordinates fuel coords with msg | rects
      · simp [process_image, hd, hn]
      · rcases hp : process_regions img upload rects 1 with ⟨tr, res⟩
        cases res <;> simp [process_image, hd, hn, hp]
    · simp [process_image, hd]

/-- C9 amended witness: with the intermediate save succeeding, no
temporary file is left even when the compression itself fails. -/
theorem C9_amended_witness :
    (download_and_compress_from_minio true true false).2 = [] :=
  C9_cleanup.1 true false
